import Mathlib

/-!
# Verification of the aoctool scaffolding core

Shallow embedding of `src/lib.rs` of the `aoctool` repository: a CLI core
that registers per-day sub-crates in a Cargo workspace manifest, fetches and
renders day templates, and scaffolds per-year project directories.

Modelling conventions:
* The filesystem is a state value (`FS`) threaded explicitly; every Rust
  function doing I/O becomes a Lean function `... → FS → FS × Except Error _`,
  so the filesystem state survives error returns exactly as on a real disk.
* Paths are lists of components (`Path := List String`); configured paths are
  taken to be canonical absolute component lists.
* External collaborators (the `aoclib` configuration and input-fetch crate,
  `reqwest` HTTP transfers, the `cargo new` process, TOML parsing and the
  format-preserving TOML serializer of `toml_edit`) are oracles collected in
  an `Env` record, since their code is outside this repository. The parts of
  `toml_edit` whose behaviour the manifest editor relies on structurally
  (`entry`, `as_table_mut`, `as_value_mut`, `as_array_mut`, `Array::push`)
  are modelled concretely on a document tree.
-/

set_option autoImplicit false

namespace Aoctool

/-- A filesystem path, as a list of canonical components. -/
abbrev Path := List String

/-- Filesystem state: a partial map from paths to file contents, plus the set
of existing directories. -/
structure FS where
  files : Path → Option String
  dirs : Path → Bool

/-- Content of the file at `p`, if a file exists there (`std::fs::read_to_string`). -/
def FS.readFile (fs : FS) (p : Path) : Option String := fs.files p

/-- Does a file exist at `p`? -/
def FS.fileExists (fs : FS) (p : Path) : Bool := (fs.files p).isSome

/-- Does a directory exist at `p`? (`Path::is_dir`) -/
def FS.dirExists (fs : FS) (p : Path) : Bool := fs.dirs p

/-- Does anything exist at `p`? (`Path::exists`) -/
def FS.pathExists (fs : FS) (p : Path) : Bool := fs.fileExists p || fs.dirExists p

/-- Write (create or truncate) the file at `p` (`std::fs::write`). -/
def FS.writeFile (fs : FS) (p : Path) (c : String) : FS :=
  { fs with files := fun q => if q = p then some c else fs.files q }

/-- Create the directory at `p` together with all its ancestors
(`std::fs::create_dir_all`). -/
def FS.createDirAll (fs : FS) (p : Path) : FS :=
  { fs with dirs := fun q => q.isPrefixOf p || fs.dirs q }

/-- IO error kinds distinguished by the embedding. -/
inductive IoErr
  | alreadyExists
  | notFound
  | other
deriving DecidableEq, Repr

/-- Open a file with `write(true).create_new(true)`: fails if anything already
exists at `p`, otherwise creates it empty. -/
def FS.createNewFile (fs : FS) (p : Path) : Except IoErr FS :=
  if fs.pathExists p then .error .alreadyExists else .ok (fs.writeFile p "")

/-- Open with `create(true).append(true)` and write `buf`
(the `.gitignore` append in `initialize_year`). -/
def FS.appendFile (fs : FS) (p : Path) (buf : String) : FS :=
  fs.writeFile p (((fs.files p).getD "") ++ buf)

/-- Remove the directory `p` and everything below it (`std::fs::remove_dir_all`). -/
def FS.removeDirAll (fs : FS) (p : Path) : FS :=
  { files := fun q => if p.isPrefixOf q then none else fs.files q,
    dirs := fun q => if p.isPrefixOf q then false else fs.dirs q }

/-! ## The TOML document model (`toml_edit` as used by the manifest editor) -/

/-- A TOML value node (`toml_edit::Value`), restricted to the shapes the
manifest editor distinguishes: strings, integers, arrays, everything else. -/
inductive TomlValue
  | str (s : String)
  | int (n : Int)
  | arr (items : List TomlValue)
  | other

/-- `Value::as_str`. -/
def TomlValue.asStr : TomlValue → Option String
  | .str s => some s
  | _ => none

/-- Is this value a TOML string? (`toml_edit` value-type check used by
`Array::push` homogeneity.) -/
def TomlValue.isStr : TomlValue → Bool
  | .str _ => true
  | _ => false

/-- A TOML table item (`toml_edit::Item`). -/
inductive TomlItem
  | none
  | value (v : TomlValue)
  | table (entries : List (String × TomlItem))
  | arrayOfTables

/-- `Item::is_none`. -/
def TomlItem.isNone : TomlItem → Bool
  | .none => true
  | _ => false

/-- A parsed TOML document (`toml_edit::Document`); its root is always a table. -/
structure TomlDoc where
  root : List (String × TomlItem)

/-- Look up the item stored under `k`; a vacant entry reads as `Item::None`
(`Table::entry` before any assignment). -/
def getEntry : List (String × TomlItem) → String → TomlItem
  | [], _ => .none
  | (k', v) :: rest, k => if k' = k then v else getEntry rest k

/-- Does the table contain key `k`? -/
def containsKey : List (String × TomlItem) → String → Bool
  | [], _ => false
  | (k', _) :: rest, k => k' = k || containsKey rest k

/-- Store `v` under `k`: in place if the key is present (preserving the entry's
position), appended at the end otherwise — exactly the observable effect of
`Table::entry` followed by an assignment through the returned reference. -/
def setEntry : List (String × TomlItem) → String → TomlItem → List (String × TomlItem)
  | [], k, v => [(k, v)]
  | (k', v') :: rest, k, v =>
    if k' = k then (k, v) :: rest else (k', v') :: setEntry rest k v

/-! ## Errors (`enum Error` of `src/lib.rs`) -/

/-- The error enumeration of `src/lib.rs`, with opaque third-party payloads
dropped. -/
inductive Error
  | io (e : IoErr)
  | noCargoToml
  | parseToml
  | malformedToml
  | cargoTomlWrite
  | template (name : String)
  | getInput
  | crateAlreadyExists (name : String)
  | clientBuilder
  | requestingInput
  | responseStatus
  | downloading
deriving DecidableEq, Repr

/-- Outcome of one blocking template download: the four network stages the
source distinguishes (`send`, `error_for_status`, `copy_to`). -/
inductive FetchResult
  | success (body : String)
  | requestFailed
  | badStatus
  | bodyFailed

/-! ## Configuration (external `aoclib::config::Config` collaborator) -/

/-- Modelled from the spec: the per-year path settings (input storage,
implementation root, template cache) held by the external configuration
collaborator (`aoclib::config::Paths`); `initialize_year` reads and writes
these three optional fields. -/
structure YearPaths where
  inputFiles : Option Path := Option.none
  implementation : Option Path := Option.none
  dayTemplate : Option Path := Option.none

/-- Modelled from the spec: the external configuration collaborator
(`aoclib::config::Config`). It resolves the three per-year path roles,
falling back to the documented defaults (`$(pwd)` for the implementation
root, `$(pwd)/inputs` for input storage) when a role is unconfigured. -/
structure Config where
  cwd : Path
  paths : Nat → Option YearPaths

/-- The per-year path record, defaulting to all-unset (`entry(year).or_default()`). -/
def Config.yearPaths (c : Config) (y : Nat) : YearPaths := (c.paths y).getD {}

/-- Modelled from the spec: `config.implementation(year)` — the configured
implementation root, defaulting to the working directory. -/
def Config.implementation (c : Config) (y : Nat) : Path :=
  ((c.yearPaths y).implementation).getD c.cwd

/-- Modelled from the spec: `config.input_files(year)` — the configured input
storage path, defaulting to `inputs` under the working directory. -/
def Config.inputFiles (c : Config) (y : Nat) : Path :=
  ((c.yearPaths y).inputFiles).getD (c.cwd ++ ["inputs"])

/-- Modelled from the spec: `config.day_template(year)` — the configured
template cache directory, with an unspecified default under the working
directory. -/
def Config.dayTemplate (c : Config) (y : Nat) : Path :=
  ((c.yearPaths y).dayTemplate).getD (c.cwd ++ ["day-templates"])

/-! ## The oracle environment for external collaborators -/

/-- Oracles for every effect whose implementation lives outside this
repository: TOML parsing and serialization (`toml_edit`), the HTTP client
(`reqwest`), path canonicalization, the `cargo new` process, and the
input-fetch collaborator (`aoclib::website::get_input`). -/
structure Env where
  parseToml : String → Except Unit TomlDoc
  serializeDoc : TomlDoc → String
  clientBuild : Except Unit Unit
  fetch : String → FetchResult
  canon : Path → Path
  cargoNew : Except IoErr Nat
  cargoNewFs : FS → FS
  getInput : Nat → Nat → FS → FS × Except Unit Unit

/-! ## Manifest editor (`get_cargo_toml`, `add_crate_to_workspace`) -/

/-- The duplicate check of `add_crate_to_workspace`:
`members.iter().any(|item| item.as_str().map(|s| s == crate_name).unwrap_or_default())`. -/
def dupCheck (items : List TomlValue) (crateName : String) : Bool :=
  items.any fun item => ((item.asStr).map (fun s => s == crateName)).getD false

/-- The pure document transformation of `add_crate_to_workspace` (everything
up to, but not including, the file write). `Array::push` of a string is
modelled with `toml_edit`'s homogeneity check: it succeeds only into an empty
or all-string array, and its failure is mapped to `Error::MalformedToml` as in
the source. -/
def addCrateCore (doc : TomlDoc) (crateName : String) : Except Error TomlDoc :=
  let w₀ := getEntry doc.root "workspace"
  let w₁ := if w₀.isNone then TomlItem.table [] else w₀
  match w₁ with
  | .table ws =>
    let m₀ := getEntry ws "members"
    let m₁ := if m₀.isNone then TomlItem.value (.arr []) else m₀
    match m₁ with
    | .value (.arr items) =>
      if dupCheck items crateName then
        .error (.crateAlreadyExists crateName)
      else if items.all TomlValue.isStr then
        .ok ⟨setEntry doc.root "workspace"
          (.table (setEntry ws "members"
            (.value (.arr (items ++ [.str crateName])))))⟩
      else
        .error .malformedToml
    | .value _ => .error .malformedToml
    | _ => .error .malformedToml
  | _ => .error .malformedToml

/-- `add_crate_to_workspace`: on success the manifest file is rewritten with
the format-preserving serialization (`to_string_in_original_order` oracle);
on any error the file is untouched, since the write is the last step. -/
def addCrateToWorkspace (env : Env) (cargoTomlPath : Path) (manifest : TomlDoc)
    (crateName : String) (fs : FS) : FS × Except Error TomlDoc :=
  match addCrateCore manifest crateName with
  | .error e => (fs, .error e)
  | .ok doc' => (fs.writeFile cargoTomlPath (env.serializeDoc doc'), .ok doc')

/-- `get_cargo_toml`: resolve the manifest path for the year, fail with
`NoCargoToml` if absent, otherwise read and parse it. Pure reader: no
filesystem mutation. -/
def getCargoToml (env : Env) (config : Config) (year : Nat) (fs : FS) :
    Except Error (Path × TomlDoc) :=
  let p := config.implementation year ++ ["Cargo.toml"]
  if fs.pathExists p then
    match fs.readFile p with
    | some s =>
      match env.parseToml s with
      | .ok doc => .ok (p, doc)
      | .error _ => .error .parseToml
    | Option.none => .error (.io .notFound)
  else
    .error .noCargoToml

/-! ## Template store (`ensure_template_dir`) -/

/-- `TEMPLATE_FILES` of the source. -/
def TEMPLATE_FILES : List String := ["Cargo.toml", "src/lib.rs", "src/main.rs"]

/-- The remote URL a missing template is fetched from. -/
def templateUrl (t : String) : String :=
  "https://raw.githubusercontent.com/coriolinus/aoctool/master/day-template/" ++ t

/-- Split a relative path string on slashes into components
(`Path::join` with a multi-component relative string). -/
def splitSlashAux : List Char → List Char → List String
  | [], acc => [String.mk acc.reverse]
  | c :: rest, acc =>
    if c = '/' then String.mk acc.reverse :: splitSlashAux rest []
    else splitSlashAux rest (c :: acc)

/-- Join a relative template name such as `"src/lib.rs"` onto a directory. -/
def joinRel (dir : Path) (t : String) : Path := dir ++ splitSlashAux t.data []

/-- One iteration of the fetch loop in `ensure_template_dir`: skip templates
already present, otherwise build the client, perform the blocking GET, create
the destination file with `create_new(true)` and copy the body into it. The
failure of each network stage maps to its distinct `Error` variant; a body
copy failure leaves the freshly created empty file behind. -/
def fetchTemplate (env : Env) (dir : Path) (t : String) (fs : FS) :
    FS × Except Error Unit :=
  let p := joinRel dir t
  if fs.pathExists p then (fs, .ok ())
  else
    match env.clientBuild with
    | .error _ => (fs, .error .clientBuilder)
    | .ok () =>
      match env.fetch (templateUrl t) with
      | .requestFailed => (fs, .error .requestingInput)
      | .badStatus => (fs, .error .responseStatus)
      | .bodyFailed =>
        match fs.createNewFile p with
        | .error e => (fs, .error (.io e))
        | .ok fs₁ => (fs₁, .error .downloading)
      | .success body =>
        match fs.createNewFile p with
        | .error e => (fs, .error (.io e))
        | .ok fs₁ => (fs₁.writeFile p body, .ok ())

/-- The `for template in TEMPLATE_FILES` loop of `ensure_template_dir`; the
`?` operator aborts the loop at the first failure. -/
def fetchTemplates (env : Env) (dir : Path) : List String → FS → FS × Except Error Unit
  | [], fs => (fs, .ok ())
  | t :: ts, fs =>
    match fetchTemplate env dir t fs with
    | (fs₁, .ok _) => fetchTemplates env dir ts fs₁
    | (fs₁, .error e) => (fs₁, .error e)

/-- `ensure_template_dir`: create the cache directory if missing, fetch each
missing template, and return the directory path. -/
def ensureTemplateDir (env : Env) (config : Config) (year : Nat) (fs : FS) :
    FS × Except Error Path :=
  let dir := config.dayTemplate year
  let fs₁ := if fs.pathExists dir then fs else fs.createDirAll dir
  match fetchTemplates env dir TEMPLATE_FILES fs₁ with
  | (fs₂, .ok _) => (fs₂, .ok dir)
  | (fs₂, .error e) => (fs₂, .error e)

/-! ## Template renderer (`render_templates_into`, TinyTemplate model) -/

/-- The opening brace character of the TinyTemplate placeholder syntax. -/
def braceL : Char := Char.ofNat 123

/-- The closing brace character of the TinyTemplate placeholder syntax. -/
def braceR : Char := Char.ofNat 125

/-- Index of the first closing brace, if any. -/
def findClose : List Char → Option Nat
  | [] => Option.none
  | c :: rest => if c = braceR then some 0 else (findClose rest).map (· + 1)

/-- Strip leading and trailing spaces of a placeholder name (TinyTemplate
allows whitespace inside the braces). -/
def trimChars (l : List Char) : List Char :=
  ((l.dropWhile (· = ' ')).reverse.dropWhile (· = ' ')).reverse

/-- The substitution context of `render_templates_into`: serde serializes the
`day: u8` field as its decimal digits and `package_name` as a plain string. -/
def lookupVar (day : Nat) (pkg : String) (ident : String) : Option String :=
  if ident = "day" then some (Nat.repr day)
  else if ident = "package_name" then some pkg
  else Option.none

/-- Modelled from TinyTemplate as exercised by the source: literal text is
copied; a backslash escapes a literal opening brace; a brace-delimited name is
replaced by its context value; an unknown name or an unclosed brace is a
template error (`None`). Fuel-indexed for kernel-reducible evaluation; the
fuel is always sufficient since every step consumes input. -/
def renderChars (day : Nat) (pkg : String) : Nat → List Char → Option (List Char)
  | 0, _ => Option.none
  | _ + 1, [] => some []
  | fuel + 1, c :: rest =>
    if c = '\\' ∧ rest.head? = some braceL then
      (renderChars day pkg fuel rest.tail).map (fun out => braceL :: out)
    else if c = braceL then
      match findClose rest with
      | some i =>
        match lookupVar day pkg (String.mk (trimChars (rest.take i))) with
        | some v => (renderChars day pkg fuel (rest.drop (i + 1))).map (fun out => v.data ++ out)
        | Option.none => Option.none
      | Option.none => Option.none
    else
      (renderChars day pkg fuel rest).map (fun out => c :: out)

/-- Render one template string against the day/package-name context. -/
def renderString (day : Nat) (pkg : String) (s : String) : Option String :=
  (renderChars day pkg (s.data.length + 1) s.data).map String.mk

/-- One iteration of the render loop of `render_templates_into`: read the
cached template, render it (compile or substitution failure becomes
`Error::Template` carrying the template name), then write the result to a
new file under the destination, failing if it already exists. -/
def renderTemplate (tmplDir dayDir : Path) (day : Nat) (pkg : String)
    (t : String) (fs : FS) : FS × Except Error Unit :=
  match fs.readFile (joinRel tmplDir t) with
  | Option.none => (fs, .error (.io .notFound))
  | some text =>
    match renderString day pkg text with
    | Option.none => (fs, .error (.template t))
    | some rendered =>
      match fs.createNewFile (joinRel dayDir t) with
      | .error e => (fs, .error (.io e))
      | .ok fs₁ => (fs₁.writeFile (joinRel dayDir t) rendered, .ok ())

/-- The `for template in TEMPLATE_FILES` render loop. -/
def renderTemplates (tmplDir dayDir : Path) (day : Nat) (pkg : String) :
    List String → FS → FS × Except Error Unit
  | [], fs => (fs, .ok ())
  | t :: ts, fs =>
    match renderTemplate tmplDir dayDir day pkg t fs with
    | (fs₁, .ok _) => renderTemplates tmplDir dayDir day pkg ts fs₁
    | (fs₁, .error e) => (fs₁, .error e)

/-- `render_templates_into`: populate the template cache, then render every
template into the destination directory. -/
def renderTemplatesInto (env : Env) (config : Config) (dayDir : Path)
    (year day : Nat) (pkg : String) (fs : FS) : FS × Except Error Unit :=
  match ensureTemplateDir env config year fs with
  | (fs₁, .error e) => (fs₁, .error e)
  | (fs₁, .ok tmplDir) => renderTemplates tmplDir dayDir day pkg TEMPLATE_FILES fs₁

/-! ## Day initializer (`initialize`) -/

/-- Rust's two-digit zero-padding number format (the `:02` format spec):
decimal digits, zero-padded on the left to a minimum width of two. -/
def formatWidth2Zero (n : Nat) : String :=
  let s := Nat.repr n
  if s.length < 2 then "0" ++ s else s

/-- The deterministic sub-project name: `day` followed by the two-digit
zero-padded day number. -/
def dayName (day : Nat) : String := "day" ++ formatWidth2Zero day

/-- `initialize` (renamed `initializeDay`; `initialize` is a Lean keyword):
resolve and parse the manifest; unless skipped, create the day directory
tree, register the sub-crate in the workspace manifest, and render the
templates; unless skipped, invoke the input-fetch collaborator. Each step's
failure aborts the remainder, leaving earlier side effects in place. -/
def initializeDay (env : Env) (config : Config) (year day : Nat)
    (skipCreateCrate skipGetInput : Bool) (fs : FS) : FS × Except Error Unit :=
  let implementationDir := config.implementation year
  match getCargoToml env config year fs with
  | .error e => (fs, .error e)
  | .ok (cargoTomlPath, manifest) =>
    let step₁ : FS × Except Error Unit :=
      if skipCreateCrate then (fs, .ok ())
      else
        let dn := dayName day
        let dayDir := implementationDir ++ [dn]
        let fs₁ := fs.createDirAll (dayDir ++ ["src"])
        match addCrateToWorkspace env cargoTomlPath manifest dn fs₁ with
        | (fs₂, .error e) => (fs₂, .error e)
        | (fs₂, .ok _) => renderTemplatesInto env config dayDir year day dn fs₂
    match step₁ with
    | (fs', .error e) => (fs', .error e)
    | (fs', .ok _) =>
      if skipGetInput then (fs', .ok ())
      else
        match env.getInput year day fs' with
        | (fs'', .ok _) => (fs'', .ok ())
        | (fs'', .error _) => (fs'', .error .getInput)

/-! ## Year initializer (`initialize_year`) -/

/-- The user-supplied `PathOpts` of the year initializer. -/
structure PathOpts where
  inputFiles : Option Path
  implementation : Option Path
  dayTemplates : Option Path

/-- The `ensure_path` closure of `initialize_year`: only when a desired path
is supplied and no path is configured yet does anything happen — the
directory is created if missing and the canonical form is stored; in every
other case both the filesystem and the stored value are untouched. -/
def ensurePath (env : Env) (maybePath : Option Path) (dest : Option Path) (fs : FS) :
    FS × Option Path :=
  match maybePath, dest with
  | some desired, Option.none =>
    ((if fs.pathExists desired then fs else fs.createDirAll desired),
      some (env.canon desired))
  | _, _ => (fs, dest)

/-- Update the per-year paths entry of the configuration map. -/
def setPaths (paths : Nat → Option YearPaths) (y : Nat) (v : YearPaths) :
    Nat → Option YearPaths :=
  fun y' => if y' = y then some v else paths y'

/-- The path-configuration block of `initialize_year` (its first scoped
block): apply `ensure_path` to the three path roles and store the results. -/
def configurePaths (env : Env) (config : Config) (year : Nat) (opts : PathOpts)
    (fs : FS) : FS × Config :=
  let paths := config.yearPaths year
  let s₁ := ensurePath env opts.inputFiles paths.inputFiles fs
  let s₂ := ensurePath env opts.implementation paths.implementation s₁.1
  let s₃ := ensurePath env opts.dayTemplates paths.dayTemplate s₂.1
  (s₃.1, { config with
    paths := setPaths config.paths year ⟨s₁.2, s₂.2, s₃.2⟩ })

/-- The bootstrap block of `initialize_year`: if the implementation root does
not exist, spawn `cargo new` — `status()?` propagates only a failure to
launch, the exit status itself is ignored — then remove the default `src`
sub-directory if it exists as a directory. -/
def bootstrapImpl (env : Env) (implPath : Path) (fs : FS) : FS × Except Error Unit :=
  if fs.pathExists implPath then (fs, .ok ())
  else
    match env.cargoNew with
    | .error e => (fs, .error (.io e))
    | .ok _status =>
      let fs₁ := env.cargoNewFs fs
      let srcPath := implPath ++ ["src"]
      ((if fs₁.dirExists srcPath then fs₁.removeDirAll srcPath else fs₁), .ok ())

/-- Strip the common prefix of two component lists (`pathdiff` helper). -/
def dropCommon : Path → Path → Path × Path
  | [], bs => ([], bs)
  | as, [] => (as, [])
  | a :: as, b :: bs => if a = b then dropCommon as bs else (a :: as, b :: bs)

/-- Modelled from `pathdiff::diff_paths` on two canonical absolute paths:
strip the common prefix and climb with `..` for every remaining component of
the base. Two absolute paths always produce `some`. -/
def diffPaths (p base : Path) : Option Path :=
  let r := dropCommon p base
  some (List.replicate r.2.length ".." ++ r.1)

/-- The byte rendering of a relative path (`OsStr::as_bytes`), components
joined by slashes; the empty path renders as the empty string. -/
def relString : Path → String
  | [] => ""
  | [x] => x
  | x :: xs => x ++ "/" ++ relString xs

/-- The `.gitignore` block of `initialize_year`: when the input-storage path
diffed against the implementation root does not start with `..`, append the
relative path and a newline to `.gitignore` at the implementation root
(creating it if absent, never de-duplicating). -/
def gitignoreStep (config : Config) (year : Nat) (implPath : Path) (fs : FS) : FS :=
  match diffPaths (config.inputFiles year) (config.implementation year) with
  | some rel =>
    if rel.take 1 = [".."] then fs
    else fs.appendFile (implPath ++ [".gitignore"]) (relString rel ++ "\n")
  | Option.none => fs

/-- `initialize_year`: configure the three path roles, bootstrap the
implementation project if its directory is missing, then maintain the
`.gitignore` entry for the input directory. The updated configuration is
returned (the Rust function mutates it through `&mut`). -/
def initializeYear (env : Env) (config : Config) (year : Nat) (opts : PathOpts)
    (fs : FS) : FS × Config × Except Error Unit :=
  let s := configurePaths env config year opts fs
  let implPath := s.2.implementation year
  match bootstrapImpl env implPath s.1 with
  | (fs₂, .error e) => (fs₂, s.2, .error e)
  | (fs₂, .ok _) => (gitignoreStep s.2 year implPath fs₂, s.2, .ok ())

/-! ## Statement helpers -/

/-- The members array reached by the manifest editor's navigation: the
`workspace` table's `members` entry, when both have the expected shapes. -/
def membersOf (doc : TomlDoc) : Option (List TomlValue) :=
  match getEntry doc.root "workspace" with
  | .table ws =>
    match getEntry ws "members" with
    | .value (.arr items) => some items
    | _ => Option.none
  | _ => Option.none

/-- The entry list of the `workspace` table (empty when `workspace` is not a
table). -/
def wsEntries (doc : TomlDoc) : List (String × TomlItem) :=
  match getEntry doc.root "workspace" with
  | .table ws => ws
  | _ => []

/-- The document produced by a successful registration: the `workspace`
table's `members` array extended with the crate name, everything else kept. -/
def docAfterAdd (doc : TomlDoc) (ws : List (String × TomlItem))
    (items : List TomlValue) (name : String) : TomlDoc :=
  ⟨setEntry doc.root "workspace"
    (.table (setEntry ws "members" (.value (.arr (items ++ [.str name])))))⟩

/-- The filesystem state reached by day initialization after the day
directory tree is created and the manifest rewritten — the state from which
the template store then runs. Used to phrase cache-emptiness hypotheses. -/
def dayScaffoldState (env : Env) (config : Config) (year day : Nat) (fs : FS)
    (doc' : TomlDoc) : FS :=
  (fs.createDirAll (config.implementation year ++ [dayName day] ++ ["src"])).writeFile
    (config.implementation year ++ ["Cargo.toml"]) (env.serializeDoc doc')

/-- The all-unset path options of `initialize_year`. -/
def noOpts : PathOpts := ⟨Option.none, Option.none, Option.none⟩

/-! ## Concrete fixtures used by witnesses and counterexamples -/

/-- The empty filesystem. -/
def emptyFS : FS := ⟨fun _ => Option.none, fun _ => false⟩

/-- A baseline oracle environment: parsing yields an empty document,
serialization is a fixed marker string, every template fetch reports a
non-success HTTP status, canonicalization is the identity, `cargo new`
exits successfully without touching the disk, input download succeeds. -/
def baseEnv : Env where
  parseToml := fun _ => .ok ⟨[]⟩
  serializeDoc := fun _ => "SERIALIZED"
  clientBuild := .ok ()
  fetch := fun _ => .badStatus
  canon := id
  cargoNew := .ok 0
  cargoNewFs := id
  getInput := fun _ _ f => (f, .ok ())

/-- A manifest document whose members list already holds `day03`. -/
def docDup : TomlDoc :=
  ⟨[("workspace", .table [("members", .value (.arr [.str "day03"]))])]⟩

/-- A manifest document whose members list holds an integer entry. -/
def docInts : TomlDoc :=
  ⟨[("workspace", .table [("members", .value (.arr [.int 1]))])]⟩

/-- Configuration for the day-initialization scenarios: year 2023 has its
implementation root at `impl`, input storage at `inputs`, template cache at
`tmpl`. -/
def configDay : Config :=
  ⟨["home"], fun y =>
    if y = 2023 then some ⟨some ["inputs"], some ["impl"], some ["tmpl"]⟩
    else Option.none⟩

/-- Filesystem for the day-initialization scenarios: the implementation
directory exists and holds a manifest with content `old`; the template cache
directory is completely absent. -/
def fsDay : FS :=
  ⟨fun q => if q = ["impl", "Cargo.toml"] then some "old" else Option.none,
   fun q => q.isPrefixOf ["impl"]⟩

/-- Configuration whose input-storage path equals its implementation root. -/
def configEqPaths : Config :=
  ⟨["w"], fun y =>
    if y = 2023 then some ⟨some ["r"], some ["r"], some ["t"]⟩
    else Option.none⟩

/-- Configuration whose input-storage path is a strict sub-directory of its
implementation root. -/
def configSubPaths : Config :=
  ⟨["w"], fun y =>
    if y = 2023 then some ⟨some ["r", "inputs"], some ["r"], some ["t"]⟩
    else Option.none⟩

/-- Filesystem holding just the directory `r`. -/
def fsR : FS := ⟨fun _ => Option.none, fun q => q.isPrefixOf ["r"]⟩

/-- Configuration for the rendering scenario: year 2020, implementation root
`impl`, template cache `tpl`. -/
def configRender : Config :=
  ⟨["cwd"], fun y =>
    if y = 2020 then some ⟨some ["in"], some ["impl"], some ["tpl"]⟩
    else Option.none⟩

/-- Filesystem for the rendering scenario: all three templates are cached in
`tpl` and carry `day` and `package_name` placeholders; the destination files
do not exist. -/
def fsRender : FS :=
  ⟨fun q =>
    if q = ["tpl", "Cargo.toml"] then some "name = \"\x7bpackage_name\x7d\"\n"
    else if q = ["tpl", "src", "lib.rs"] then some "pub const DAY: u8 = \x7bday\x7d;\n"
    else if q = ["tpl", "src", "main.rs"] then some "use \x7bpackage_name\x7d; run(\x7b day \x7d)"
    else Option.none,
   fun q => q.isPrefixOf ["tpl", "src"] || q.isPrefixOf ["impl", "day07"]⟩

/-- Environment for the year-bootstrap scenario: `cargo new` launches, exits
with the nonzero status 1, and creates the implementation directory with a
default `src` sub-directory and a manifest file. -/
def envCargoNonzero : Env :=
  { baseEnv with
    cargoNew := .ok 1
    cargoNewFs := fun f =>
      (f.createDirAll ["r", "src"]).writeFile ["r", "Cargo.toml"] "cargo-new" }

/-- Configuration for the year-bootstrap scenario: year 2024 configured with
implementation root `r`. -/
def configBoot : Config :=
  ⟨["w"], fun y =>
    if y = 2024 then some ⟨some ["w", "inputs"], some ["r"], some ["t"]⟩
    else Option.none⟩

/-- A filesystem holding a single unrelated file `f` with content `x`. -/
def fsOneFile : FS :=
  ⟨fun q => if q = ["f"] then some "x" else Option.none, fun _ => false⟩

/-- A configuration with no per-year paths set; every role resolves to its
default under the working directory `c`. -/
def configEmpty : Config := ⟨["c"], fun _ => Option.none⟩

/-- Path options supplying only an input-storage directory `data`. -/
def optsInput : PathOpts := ⟨some ["data"], Option.none, Option.none⟩

/-! ## Basic lemmas about the filesystem model -/

theorem isPrefixOf_self {α : Type} [BEq α] [LawfulBEq α] (l : List α) :
    l.isPrefixOf l = true := by
  induction l with
  | nil => simp [List.isPrefixOf]
  | cons a as ih => simp [List.isPrefixOf, ih]

theorem isPrefixOf_append_right {α : Type} [BEq α] [LawfulBEq α] (l t : List α) :
    l.isPrefixOf (l ++ t) = true := by
  induction l with
  | nil => simp [List.isPrefixOf]
  | cons a as ih => simp [List.isPrefixOf, ih]

theorem append_singleton_not_isPrefixOf {α : Type} [BEq α] [LawfulBEq α]
    (l : List α) (x : α) : (l ++ [x]).isPrefixOf l = false := by
  induction l with
  | nil => simp [List.isPrefixOf]
  | cons a as ih => simp [List.isPrefixOf, ih]

theorem readFile_createDirAll (fs : FS) (p q : Path) :
    (fs.createDirAll p).readFile q = fs.readFile q := rfl

theorem readFile_writeFile_ne (fs : FS) (p q : Path) (c : String) (h : q ≠ p) :
    (fs.writeFile p c).readFile q = fs.readFile q := by
  simp [FS.writeFile, FS.readFile, h]

theorem ne_of_readFile_some_of_not_exists (fs : FS) (q p : Path) (c : String)
    (hq : fs.readFile q = some c) (hp : ¬ fs.pathExists p = true) : q ≠ p := by
  intro h
  subst h
  simp [FS.pathExists, FS.fileExists, FS.readFile] at hq hp
  rw [hq] at hp
  simp at hp

/-! ## Preservation lemmas: the template store and renderer never overwrite -/

theorem fetchTemplate_preserves (env : Env) (dir : Path) (t : String) (fs : FS)
    (q : Path) (c : String) (h : fs.readFile q = some c) :
    ((fetchTemplate env dir t fs).1).readFile q = some c := by
  unfold fetchTemplate
  by_cases hex : fs.pathExists (joinRel dir t) = true
  · simp [hex, h]
  · have hne : q ≠ joinRel dir t := ne_of_readFile_some_of_not_exists fs q _ c h hex
    simp only [hex]
    cases env.clientBuild with
    | error e => simpa using h
    | ok u =>
      cases u
      cases env.fetch (templateUrl t) with
      | success body =>
        simp only [FS.createNewFile, hex, if_neg, Bool.false_eq_true, ite_false]
        simpa [readFile_writeFile_ne _ _ _ _ hne] using h
      | requestFailed => simpa using h
      | badStatus => simpa using h
      | bodyFailed =>
        simp only [FS.createNewFile, hex, if_neg, Bool.false_eq_true, ite_false]
        simpa [readFile_writeFile_ne _ _ _ _ hne] using h

theorem fetchTemplates_preserves (env : Env) (dir : Path) (ts : List String)
    (fs : FS) (q : Path) (c : String) (h : fs.readFile q = some c) :
    ((fetchTemplates env dir ts fs).1).readFile q = some c := by
  induction ts generalizing fs with
  | nil => simpa [fetchTemplates] using h
  | cons t ts ih =>
    have hstep := fetchTemplate_preserves env dir t fs q c h
    unfold fetchTemplates
    rcases hft : fetchTemplate env dir t fs with ⟨fs₁, r⟩
    rw [hft] at hstep
    cases r with
    | ok u => exact ih fs₁ hstep
    | error e => exact hstep

theorem ensureTemplateDir_preserves (env : Env) (config : Config) (year : Nat)
    (fs : FS) (q : Path) (c : String) (h : fs.readFile q = some c) :
    ((ensureTemplateDir env config year fs).1).readFile q = some c := by
  unfold ensureTemplateDir
  set dir := config.dayTemplate year with hdir
  set fs₁ := if fs.pathExists dir then fs else fs.createDirAll dir with hfs₁
  have h₁ : fs₁.readFile q = some c := by
    rw [hfs₁]
    split <;> simpa [readFile_createDirAll] using h
  have h₂ := fetchTemplates_preserves env dir TEMPLATE_FILES fs₁ q c h₁
  rcases hft : fetchTemplates env dir TEMPLATE_FILES fs₁ with ⟨fs₂, r⟩
  rw [hft] at h₂
  cases r with
  | ok u => simpa [hft] using h₂
  | error e => simpa [hft] using h₂

theorem renderTemplate_preserves (tmplDir dayDir : Path) (day : Nat)
    (pkg : String) (t : String) (fs : FS) (q : Path) (c : String)
    (h : fs.readFile q = some c) :
    ((renderTemplate tmplDir dayDir day pkg t fs).1).readFile q = some c := by
  rcases hrf : fs.readFile (joinRel tmplDir t) with _ | text
  · simp [renderTemplate, hrf, h]
  · rcases hrs : renderString day pkg text with _ | rendered
    · simp [renderTemplate, hrf, hrs, h]
    · by_cases hex : fs.pathExists (joinRel dayDir t) = true
      · simp [renderTemplate, hrf, hrs, FS.createNewFile, hex, h]
      · have hne : q ≠ joinRel dayDir t := ne_of_readFile_some_of_not_exists fs q _ c h hex
        simp [renderTemplate, hrf, hrs, FS.createNewFile, hex,
          readFile_writeFile_ne _ _ _ _ hne, h]

theorem renderTemplates_preserves (tmplDir dayDir : Path) (day : Nat)
    (pkg : String) (ts : List String) (fs : FS) (q : Path) (c : String)
    (h : fs.readFile q = some c) :
    ((renderTemplates tmplDir dayDir day pkg ts fs).1).readFile q = some c := by
  induction ts generalizing fs with
  | nil => simpa [renderTemplates] using h
  | cons t ts ih =>
    have hstep := renderTemplate_preserves tmplDir dayDir day pkg t fs q c h
    unfold renderTemplates
    rcases hrt : renderTemplate tmplDir dayDir day pkg t fs with ⟨fs₁, r⟩
    rw [hrt] at hstep
    cases r with
    | ok u => exact ih fs₁ hstep
    | error e => exact hstep

theorem renderTemplatesInto_preserves (env : Env) (config : Config)
    (dayDir : Path) (year day : Nat) (pkg : String) (fs : FS) (q : Path)
    (c : String) (h : fs.readFile q = some c) :
    ((renderTemplatesInto env config dayDir year day pkg fs).1).readFile q = some c := by
  unfold renderTemplatesInto
  have h₁ := ensureTemplateDir_preserves env config year fs q c h
  rcases het : ensureTemplateDir env config year fs with ⟨fs₁, r⟩
  rw [het] at h₁
  cases r with
  | ok tmplDir => exact renderTemplates_preserves tmplDir dayDir day pkg TEMPLATE_FILES fs₁ q c h₁
  | error e => exact h₁

/-! ## Lemmas about table entry update and the duplicate check -/

theorem getEntry_setEntry_self (l : List (String × TomlItem)) (k : String)
    (v : TomlItem) : getEntry (setEntry l k v) k = v := by
  induction l with
  | nil => simp [setEntry, getEntry]
  | cons e rest ih =>
    rcases e with ⟨k', v'⟩
    by_cases h : k' = k
    · simp [setEntry, getEntry, h]
    · simp [setEntry, getEntry, h, ih]

theorem getEntry_setEntry_ne (l : List (String × TomlItem)) (k : String)
    (v : TomlItem) (k' : String) (h : k' ≠ k) :
    getEntry (setEntry l k v) k' = getEntry l k' := by
  induction l with
  | nil => simp [setEntry, getEntry, Ne.symm h]
  | cons e rest ih =>
    rcases e with ⟨k₁, v₁⟩
    by_cases hk : k₁ = k
    · subst hk
      simp [setEntry, getEntry, Ne.symm h]
    · by_cases hk' : k₁ = k'
      · simp [setEntry, getEntry, hk, hk', h]
      · simp [setEntry, getEntry, hk, hk', ih]

theorem keys_setEntry (l : List (String × TomlItem)) (k : String) (v : TomlItem) :
    (setEntry l k v).map Prod.fst
      = (if containsKey l k then l.map Prod.fst else l.map Prod.fst ++ [k]) := by
  induction l with
  | nil => simp [setEntry, containsKey]
  | cons e rest ih =>
    rcases e with ⟨k', v'⟩
    by_cases h : k' = k
    · simp [setEntry, containsKey, h]
    · by_cases hc : containsKey rest k <;> simp [setEntry, containsKey, h, hc, ih]

theorem dupCheck_eq_false_of_not_mem (items : List TomlValue) (name : String)
    (h : TomlValue.str name ∉ items) : dupCheck items name = false := by
  cases hdc : dupCheck items name with
  | false => rfl
  | true =>
    exfalso
    rcases List.any_eq_true.mp hdc with ⟨v, hv, hpred⟩
    rcases v with s | n | its | _ <;> simp [TomlValue.asStr] at hpred
    subst hpred
    exact h hv

theorem pathExists_createDirAll_outside (fs : FS) (p q : Path)
    (h : q.isPrefixOf p = false) :
    (fs.createDirAll p).pathExists q = fs.pathExists q := by
  simp [FS.createDirAll, FS.pathExists, FS.fileExists, FS.dirExists, h]

theorem dirExists_createDirAll_under (fs : FS) (p q : Path)
    (h : q.isPrefixOf p = true) : (fs.createDirAll p).dirExists q = true := by
  simp [FS.createDirAll, FS.dirExists, h]

theorem isPrefixOf_append_cons {α : Type} [BEq α] [LawfulBEq α] (l : List α)
    (b : α) (t : List α) : (l ++ [b]).isPrefixOf (l ++ b :: t) = true := by
  induction l with
  | nil => simp [List.isPrefixOf]
  | cons a as ih => simp [List.isPrefixOf, ih]

theorem readFile_writeFile_self (fs : FS) (p : Path) (c : String) :
    (fs.writeFile p c).readFile p = some c := by
  simp [FS.writeFile, FS.readFile]

theorem pathExists_of_readFile_some (fs : FS) (p : Path) (c : String)
    (h : fs.readFile p = some c) : fs.pathExists p = true := by
  simp [FS.pathExists, FS.fileExists, FS.readFile] at *
  simp [h]

theorem joinRel_cargoToml (dir : Path) : joinRel dir "Cargo.toml" = dir ++ ["Cargo.toml"] := rfl

/-! ## Lemmas about path diffing and the year initializer -/

theorem dropCommon_of_isPrefixOf (base : Path) (p : Path)
    (h : base.isPrefixOf p = true) :
    dropCommon p base = (p.drop base.length, []) := by
  induction base generalizing p with
  | nil => cases p <;> simp [dropCommon]
  | cons b bs ih =>
    cases p with
    | nil => simp [List.isPrefixOf] at h
    | cons a as =>
      simp only [List.isPrefixOf, Bool.and_eq_true, beq_iff_eq] at h
      obtain ⟨hba, h2⟩ := h
      subst hba
      simp [dropCommon, ih as h2]

theorem dropCommon_snd_ne_nil (base : Path) (p : Path)
    (h : base.isPrefixOf p = false) : (dropCommon p base).2 ≠ [] := by
  induction base generalizing p with
  | nil => simp [List.isPrefixOf] at h
  | cons b bs ih =>
    cases p with
    | nil => simp [dropCommon]
    | cons a as =>
      by_cases hab : a = b
      · subst hab
        simp only [List.isPrefixOf, beq_self_eq_true, Bool.true_and] at h
        simp only [dropCommon, if_pos rfl]
        exact ih as h
      · simp [dropCommon, hab]

theorem pathExists_writeFile_mono (fs : FS) (p q : Path) (c : String)
    (h : fs.pathExists q = true) : (fs.writeFile p c).pathExists q = true := by
  by_cases hqp : q = p
  · subst hqp
    simp [FS.writeFile, FS.pathExists, FS.fileExists]
  · have h' := h
    simp [FS.pathExists, FS.fileExists, FS.dirExists] at h'
    simp [FS.writeFile, FS.pathExists, FS.fileExists, FS.dirExists, hqp, h']

theorem ensurePath_none_left (env : Env) (dest : Option Path) (fs : FS) :
    ensurePath env Option.none dest fs = (fs, dest) := by
  cases dest <;> rfl

theorem configurePaths_noOpts (env : Env) (config : Config) (year : Nat) (fs : FS) :
    configurePaths env config year noOpts fs
      = (fs, { config with
          paths := setPaths config.paths year (config.yearPaths year) }) := by
  simp [configurePaths, noOpts, ensurePath_none_left]

theorem yearPaths_setSame (config : Config) (year : Nat) (v : YearPaths) :
    ({ config with paths := setPaths config.paths year v } : Config).yearPaths year
      = v := by
  simp [Config.yearPaths, setPaths]

theorem gitignoreStep_congr (c₁ c₂ : Config) (year : Nat) (p : Path) (fs : FS)
    (h1 : c₁.inputFiles year = c₂.inputFiles year)
    (h2 : c₁.implementation year = c₂.implementation year) :
    gitignoreStep c₁ year p fs = gitignoreStep c₂ year p fs := by
  simp [gitignoreStep, diffPaths, h1, h2]

theorem gitignoreStep_subdir (config : Config) (year : Nat) (implPath : Path)
    (fs : FS)
    (h : (config.implementation year).isPrefixOf (config.inputFiles year) = true)
    (hc : ".." ∉ config.inputFiles year) :
    gitignoreStep config year implPath fs
      = fs.appendFile (implPath ++ [".gitignore"])
          (relString ((config.inputFiles year).drop
            (config.implementation year).length) ++ "\n") := by
  have hd := dropCommon_of_isPrefixOf (config.implementation year)
    (config.inputFiles year) h
  have hne : ¬ (((config.inputFiles year).drop
      (config.implementation year).length).take 1 = [".."]) := by
    intro he
    have h1 : (".." : String) ∈ ((config.inputFiles year).drop
        (config.implementation year).length).take 1 := by
      rw [he]
      exact List.mem_singleton.mpr rfl
    exact hc (List.mem_of_mem_drop (List.mem_of_mem_take h1))
  simp [gitignoreStep, diffPaths, hd, hne]

theorem gitignoreStep_not_subdir (config : Config) (year : Nat) (implPath : Path)
    (fs : FS)
    (h : (config.implementation year).isPrefixOf (config.inputFiles year) = false) :
    gitignoreStep config year implPath fs = fs := by
  have hsnd := dropCommon_snd_ne_nil (config.implementation year)
    (config.inputFiles year) h
  rcases hsc : (dropCommon (config.inputFiles year)
      (config.implementation year)).2 with _ | ⟨x, xs⟩
  · exact absurd hsc hsnd
  · simp [gitignoreStep, diffPaths, hsc, List.replicate_succ]

theorem ensurePath_snd_some_dest (env : Env) (m : Option Path) (p : Path) (fs : FS) :
    (ensurePath env m (some p) fs).2 = some p := by
  cases m <;> rfl

theorem ensurePath_fst_creates (env : Env) (d : Path) (fs : FS) :
    ((ensurePath env (some d) Option.none fs).1).pathExists d = true := by
  by_cases h : fs.pathExists d = true
  · simp [ensurePath, h]
  · simp only [ensurePath, if_neg h]
    simp [FS.pathExists, FS.dirExists, FS.createDirAll, isPrefixOf_self]

theorem ensurePath_fst_mono (env : Env) (m : Option Path) (dest : Option Path)
    (fs : FS) (q : Path) (h : fs.pathExists q = true) :
    ((ensurePath env m dest fs).1).pathExists q = true := by
  cases m with
  | none => simpa [ensurePath_none_left] using h
  | some d =>
    cases dest with
    | some p => simpa [ensurePath] using h
    | none =>
      by_cases he : fs.pathExists d = true
      · simpa [ensurePath, he] using h
      · simp only [ensurePath, if_neg he]
        have h' := h
        simp [FS.pathExists, FS.fileExists, FS.dirExists] at h'
        simp [FS.pathExists, FS.fileExists, FS.dirExists, FS.createDirAll]
        tauto

theorem configurePaths_fst (env : Env) (config : Config) (year : Nat)
    (opts : PathOpts) (fs : FS) :
    (configurePaths env config year opts fs).1
      = (ensurePath env opts.dayTemplates (config.yearPaths year).dayTemplate
          ((ensurePath env opts.implementation
            (config.yearPaths year).implementation
            ((ensurePath env opts.inputFiles
              (config.yearPaths year).inputFiles fs).1)).1)).1 := rfl

theorem configurePaths_yearPaths (env : Env) (config : Config) (year : Nat)
    (opts : PathOpts) (fs : FS) :
    ((configurePaths env config year opts fs).2).yearPaths year
      = ⟨(ensurePath env opts.inputFiles (config.yearPaths year).inputFiles fs).2,
         (ensurePath env opts.implementation
           (config.yearPaths year).implementation
           ((ensurePath env opts.inputFiles
             (config.yearPaths year).inputFiles fs).1)).2,
         (ensurePath env opts.dayTemplates (config.yearPaths year).dayTemplate
           ((ensurePath env opts.implementation
             (config.yearPaths year).implementation
             ((ensurePath env opts.inputFiles
               (config.yearPaths year).inputFiles fs).1)).1)).2⟩ := by
  simp [configurePaths, Config.yearPaths, setPaths]

theorem dirExists_removeDirAll_self (fs : FS) (p : Path) :
    (fs.removeDirAll p).dirExists p = false := by
  simp [FS.removeDirAll, FS.dirExists, isPrefixOf_self]

theorem dirExists_gitignoreStep (config : Config) (year : Nat) (ip : Path)
    (fs : FS) (q : Path) :
    (gitignoreStep config year ip fs).dirExists q = fs.dirExists q := by
  simp only [gitignoreStep, diffPaths]
  split <;> simp [FS.appendFile, FS.writeFile, FS.dirExists]

theorem initializeYear_noOpts (env : Env) (config : Config) (year : Nat) (fs : FS)
    (hEx : fs.pathExists (config.implementation year) = true) :
    initializeYear env config year noOpts fs
      = (gitignoreStep config year (config.implementation year) fs,
         { config with paths := setPaths config.paths year (config.yearPaths year) },
         .ok ()) := by
  have hcp := configurePaths_noOpts env config year fs
  have himpl : ({ config with
      paths := setPaths config.paths year (config.yearPaths year) } : Config).implementation
        year = config.implementation year := by
    simp [Config.implementation, yearPaths_setSame]
  have hgi : gitignoreStep
      { config with paths := setPaths config.paths year (config.yearPaths year) }
      year (config.implementation year) fs
      = gitignoreStep config year (config.implementation year) fs := by
    refine gitignoreStep_congr _ _ _ _ _ ?_ himpl
    simp [Config.inputFiles, yearPaths_setSame]
  simp [initializeYear, hcp, himpl, bootstrapImpl, hEx, hgi]

theorem docAfterAdd_props (doc : TomlDoc) (ws : List (String × TomlItem))
    (items : List TomlValue) (name : String) :
    membersOf (docAfterAdd doc ws items name) = some (items ++ [.str name]) ∧
    (∀ k, k ≠ "workspace" →
      getEntry (docAfterAdd doc ws items name).root k = getEntry doc.root k) ∧
    ((docAfterAdd doc ws items name).root.map Prod.fst
      = if containsKey doc.root "workspace" then doc.root.map Prod.fst
        else doc.root.map Prod.fst ++ ["workspace"]) ∧
    (∀ k, k ≠ "members" →
      getEntry (wsEntries (docAfterAdd doc ws items name)) k = getEntry ws k) ∧
    ((wsEntries (docAfterAdd doc ws items name)).map Prod.fst
      = if containsKey ws "members" then ws.map Prod.fst
        else ws.map Prod.fst ++ ["members"]) := by
  refine ⟨?_, ?_, ?_, ?_, ?_⟩
  · simp [membersOf, docAfterAdd, getEntry_setEntry_self]
  · intro k hk
    simp only [docAfterAdd]
    exact getEntry_setEntry_ne _ _ _ _ hk
  · simp [docAfterAdd, keys_setEntry]
  · intro k hk
    simp only [wsEntries, docAfterAdd, getEntry_setEntry_self]
    exact getEntry_setEntry_ne _ _ _ _ hk
  · simp [wsEntries, docAfterAdd, getEntry_setEntry_self, keys_setEntry]

theorem addCrateCore_success (doc : TomlDoc) (ws : List (String × TomlItem))
    (items : List TomlValue) (name : String)
    (hw : getEntry doc.root "workspace" = .table ws ∨
      (getEntry doc.root "workspace" = .none ∧ ws = []))
    (hm : getEntry ws "members" = .value (.arr items) ∨
      (getEntry ws "members" = .none ∧ items = []))
    (hnm : TomlValue.str name ∉ items)
    (hstr : items.all TomlValue.isStr = true) :
    addCrateCore doc name = .ok (docAfterAdd doc ws items name) := by
  have hdup := dupCheck_eq_false_of_not_mem items name hnm
  rcases hw with hw | ⟨hw, rfl⟩
  · rcases hm with hm | ⟨hm, rfl⟩
    · simp [addCrateCore, hw, hm, TomlItem.isNone, hdup, hstr, docAfterAdd]
    · simp [addCrateCore, hw, hm, TomlItem.isNone, hdup, docAfterAdd, dupCheck]
  · rcases hm with hm | ⟨hm, rfl⟩
    · simp [getEntry] at hm
    · simp [addCrateCore, hw, TomlItem.isNone, docAfterAdd, getEntry, dupCheck]

/-! ## Claim theorems -/

/-- C1: if the manifest's members list already contains the candidate crate
name as a string entry, `add_crate_to_workspace` fails with
`CrateAlreadyExists` carrying that name, and the filesystem — in particular
the manifest file on disk — is completely untouched, since the write happens
only after the duplicate check passes. -/
theorem c1_duplicate_crate_rejected (env : Env) (path : Path) (doc : TomlDoc)
    (ws : List (String × TomlItem)) (items : List TomlValue) (name : String)
    (fs : FS)
    (hw : getEntry doc.root "workspace" = .table ws)
    (hm : getEntry ws "members" = .value (.arr items))
    (hmem : TomlValue.str name ∈ items) :
    addCrateToWorkspace env path doc name fs
      = (fs, .error (.crateAlreadyExists name)) := by
  have hdup : dupCheck items name = true := by
    refine List.any_eq_true.mpr ⟨TomlValue.str name, hmem, ?_⟩
    simp [TomlValue.asStr]
  simp [addCrateToWorkspace, addCrateCore, hw, hm, TomlItem.isNone, hdup]

/-- Witness for C1: a concrete manifest whose members list already holds
`day03` is rejected and the filesystem value is returned unchanged. -/
theorem c1_witness :
    addCrateToWorkspace baseEnv ["m"] docDup "day03" emptyFS
      = (emptyFS, .error (.crateAlreadyExists "day03")) :=
  c1_duplicate_crate_rejected baseEnv ["m"] docDup _ _ "day03" emptyFS rfl rfl
    (List.mem_singleton.mpr rfl)

/-- C5: with both skip flags set, day initialization performs no filesystem
mutation — the returned state is exactly the input state — and it fails with
the no-manifest condition when the manifest path for the target year is
absent. -/
theorem c5_skip_flags_pure (env : Env) (config : Config) (year day : Nat) (fs : FS) :
    (initializeDay env config year day true true fs).1 = fs ∧
    (fs.pathExists (config.implementation year ++ ["Cargo.toml"]) = false →
      (initializeDay env config year day true true fs).2 = .error .noCargoToml) := by
  constructor
  · rcases hg : getCargoToml env config year fs with e | pd
    · simp [initializeDay, hg]
    · simp [initializeDay, hg]
  · intro habs
    have hg : getCargoToml env config year fs = .error .noCargoToml := by
      simp [getCargoToml, habs]
    simp [initializeDay, hg]

/-- Witness for C5: on an empty filesystem with an unconfigured year, the
state is returned unchanged and the result is the no-manifest error. -/
theorem c5_witness :
    (initializeDay baseEnv configEmpty 2023 5 true true emptyFS).1 = emptyFS ∧
    (initializeDay baseEnv configEmpty 2023 5 true true emptyFS).2
      = .error .noCargoToml := by
  have h := c5_skip_flags_pure baseEnv configEmpty 2023 5 emptyFS
  exact ⟨h.1, h.2 rfl⟩

/-- C7: neither the template store nor the template renderer ever overwrites
an existing file: any file present before `ensure_template_dir` or
`render_templates_into` runs still has its exact content afterwards, whether
the operation succeeds or fails. -/
theorem c7_never_overwrites (env : Env) (config : Config) (dayDir : Path)
    (year day : Nat) (pkg : String) (fs : FS) (q : Path) (c : String)
    (h : fs.readFile q = some c) :
    ((ensureTemplateDir env config year fs).1).readFile q = some c ∧
    ((renderTemplatesInto env config dayDir year day pkg fs).1).readFile q = some c :=
  ⟨ensureTemplateDir_preserves env config year fs q c h,
   renderTemplatesInto_preserves env config dayDir year day pkg fs q c h⟩

/-- Witness for C7: a pre-existing file keeps its content across a failing
template-store run and a failing renderer run. -/
theorem c7_witness :
    ((ensureTemplateDir baseEnv configRender 2020 fsOneFile).1).readFile ["f"]
      = some "x" ∧
    ((renderTemplatesInto baseEnv configRender ["impl", "day07"] 2020 7 "day07"
        fsOneFile).1).readFile ["f"] = some "x" :=
  c7_never_overwrites baseEnv configRender ["impl", "day07"] 2020 7 "day07"
    fsOneFile ["f"] "x" rfl

/-- C8: the sub-project name computed by day initialization is deterministic:
for every day number below 100 it is exactly the characters `d`, `a`, `y`,
the tens digit, and the ones digit — the day number zero-padded to two
digits after the fixed `day` stem. -/
theorem c8_day_name_zero_padded :
    ∀ d : Nat, d < 100 →
      dayName d
        = String.mk ['d', 'a', 'y', Nat.digitChar (d / 10), Nat.digitChar (d % 10)] := by
  decide

/-- Witness for C8 at the claim's example: day 5 yields `day05`. -/
theorem c8_witness : dayName 5 = "day05" :=
  (c8_day_name_zero_padded 5 (by decide)).trans (by decide)

/-- C9: rendering templates that carry `day` and `package_name` placeholders
with the context day 7 and package name `day07` succeeds and writes files in
which the placeholders are replaced by `7` and `day07` respectively, with no
brace character — hence no leftover placeholder syntax — in any written
file. -/
theorem c9_placeholders_substituted :
    (renderTemplatesInto baseEnv configRender ["impl", "day07"] 2020 7 "day07"
        fsRender).2 = .ok () ∧
    (renderTemplatesInto baseEnv configRender ["impl", "day07"] 2020 7 "day07"
        fsRender).1.readFile ["impl", "day07", "Cargo.toml"]
      = some "name = \"day07\"\n" ∧
    (renderTemplatesInto baseEnv configRender ["impl", "day07"] 2020 7 "day07"
        fsRender).1.readFile ["impl", "day07", "src", "lib.rs"]
      = some "pub const DAY: u8 = 7;\n" ∧
    (renderTemplatesInto baseEnv configRender ["impl", "day07"] 2020 7 "day07"
        fsRender).1.readFile ["impl", "day07", "src", "main.rs"]
      = some "use day07; run(7)" ∧
    braceL ∉ "name = \"day07\"\n".data ∧
    braceL ∉ "pub const DAY: u8 = 7;\n".data ∧
    braceL ∉ "use day07; run(7)".data :=
  ⟨rfl, rfl, rfl, rfl, by decide, by decide, by decide⟩

/-- C2 (amended): for a manifest not containing the candidate name,
`add_crate_to_workspace` locates the workspace table and members list
(creating each if absent), appends the name at the end of the list, and
rewrites the file with the format-preserving serialization of the updated
document — every root entry other than `workspace`, every workspace entry
other than `members`, and the order of all entries are preserved; it fails
with the malformed-structure condition if the workspace entry exists but is
not a table, if the members entry exists but is not an array value, or — the
amendment — if the members array holds non-string elements (the underlying
array push only accepts a string into an empty or all-string array). -/
theorem c2_add_crate_characterization (env : Env) (path : Path) (doc : TomlDoc)
    (name : String) (fs : FS) :
    (∀ ws items,
      (getEntry doc.root "workspace" = .table ws ∨
        (getEntry doc.root "workspace" = .none ∧ ws = [])) →
      (getEntry ws "members" = .value (.arr items) ∨
        (getEntry ws "members" = .none ∧ items = [])) →
      TomlValue.str name ∉ items →
      items.all TomlValue.isStr = true →
      addCrateToWorkspace env path doc name fs
        = (fs.writeFile path (env.serializeDoc (docAfterAdd doc ws items name)),
           .ok (docAfterAdd doc ws items name)) ∧
      membersOf (docAfterAdd doc ws items name) = some (items ++ [.str name]) ∧
      (∀ k, k ≠ "workspace" →
        getEntry (docAfterAdd doc ws items name).root k = getEntry doc.root k) ∧
      ((docAfterAdd doc ws items name).root.map Prod.fst
        = if containsKey doc.root "workspace" then doc.root.map Prod.fst
          else doc.root.map Prod.fst ++ ["workspace"]) ∧
      (∀ k, k ≠ "members" →
        getEntry (wsEntries (docAfterAdd doc ws items name)) k = getEntry ws k) ∧
      ((wsEntries (docAfterAdd doc ws items name)).map Prod.fst
        = if containsKey ws "members" then ws.map Prod.fst
          else ws.map Prod.fst ++ ["members"])) ∧
    (∀ v, getEntry doc.root "workspace" = .value v →
      addCrateToWorkspace env path doc name fs = (fs, .error .malformedToml)) ∧
    (getEntry doc.root "workspace" = .arrayOfTables →
      addCrateToWorkspace env path doc name fs = (fs, .error .malformedToml)) ∧
    (∀ ws ms, getEntry doc.root "workspace" = .table ws →
      getEntry ws "members" = .table ms →
      addCrateToWorkspace env path doc name fs = (fs, .error .malformedToml)) ∧
    (∀ ws, getEntry doc.root "workspace" = .table ws →
      getEntry ws "members" = .arrayOfTables →
      addCrateToWorkspace env path doc name fs = (fs, .error .malformedToml)) ∧
    (∀ ws v, getEntry doc.root "workspace" = .table ws →
      getEntry ws "members" = .value v → (∀ its, v ≠ .arr its) →
      addCrateToWorkspace env path doc name fs = (fs, .error .malformedToml)) ∧
    (∀ ws items,
      (getEntry doc.root "workspace" = .table ws ∨
        (getEntry doc.root "workspace" = .none ∧ ws = [])) →
      (getEntry ws "members" = .value (.arr items) ∨
        (getEntry ws "members" = .none ∧ items = [])) →
      TomlValue.str name ∉ items →
      items.all TomlValue.isStr = false →
      addCrateToWorkspace env path doc name fs = (fs, .error .malformedToml)) := by
  refine ⟨?_, ?_, ?_, ?_, ?_, ?_, ?_⟩
  · intro ws items hw hm hnm hstr
    have hc := addCrateCore_success doc ws items name hw hm hnm hstr
    have hp := docAfterAdd_props doc ws items name
    exact ⟨by simp [addCrateToWorkspace, hc], hp.1, hp.2.1, hp.2.2.1,
      hp.2.2.2.1, hp.2.2.2.2⟩
  · intro v hw
    simp [addCrateToWorkspace, addCrateCore, hw, TomlItem.isNone]
  · intro hw
    simp [addCrateToWorkspace, addCrateCore, hw, TomlItem.isNone]
  · intro ws ms hw hm
    simp [addCrateToWorkspace, addCrateCore, hw, hm, TomlItem.isNone]
  · intro ws hw hm
    simp [addCrateToWorkspace, addCrateCore, hw, hm, TomlItem.isNone]
  · intro ws v hw hm hv
    rcases v with s | n | its | _
    · simp [addCrateToWorkspace, addCrateCore, hw, hm, TomlItem.isNone]
    · simp [addCrateToWorkspace, addCrateCore, hw, hm, TomlItem.isNone]
    · exact absurd rfl (hv its)
    · simp [addCrateToWorkspace, addCrateCore, hw, hm, TomlItem.isNone]
  · intro ws items hw hm hnm hstr
    have hdup := dupCheck_eq_false_of_not_mem items name hnm
    rcases hw with hw | ⟨hw, rfl⟩
    · rcases hm with hm | ⟨hm, rfl⟩
      · simp [addCrateToWorkspace, addCrateCore, hw, hm, TomlItem.isNone, hdup, hstr]
      · simp at hstr
    · rcases hm with hm | ⟨hm, rfl⟩
      · simp [getEntry] at hm
      · simp at hstr

/-- C2 counterexample: a manifest whose workspace is a table and whose
members entry is an array value that does not contain the candidate name —
exactly the success preconditions of the claim as stated — is nevertheless
rejected with the malformed-structure error and the file is not written,
because the members array holds an integer. -/
theorem c2_counterexample :
    getEntry docInts.root "workspace"
      = TomlItem.table [("members", .value (.arr [.int 1]))] ∧
    getEntry [("members", TomlItem.value (TomlValue.arr [TomlValue.int 1]))] "members"
      = .value (.arr [.int 1]) ∧
    TomlValue.str "day05" ∉ [TomlValue.int 1] ∧
    addCrateToWorkspace baseEnv ["m"] docInts "day05" emptyFS
      = (emptyFS, .error .malformedToml) :=
  ⟨rfl, rfl, fun h => TomlValue.noConfusion (List.mem_singleton.mp h), rfl⟩

/-- Witness for C2 on a concrete empty manifest: the workspace table and
members list are created, the name is appended, and the file is rewritten
with the serialized updated document. -/
theorem c2_witness :
    addCrateToWorkspace baseEnv ["m"] ⟨[]⟩ "day01" emptyFS
      = (emptyFS.writeFile ["m"] "SERIALIZED", .ok (docAfterAdd ⟨[]⟩ [] [] "day01")) ∧
    membersOf (docAfterAdd ⟨[]⟩ [] [] "day01") = some [TomlValue.str "day01"] := by
  have h := (c2_add_crate_characterization baseEnv ["m"] ⟨[]⟩ "day01" emptyFS).1 [] []
    (Or.inr ⟨rfl, rfl⟩) (Or.inr ⟨rfl, rfl⟩) (List.not_mem_nil _) rfl
  exact ⟨h.1, h.2.1⟩

/-- C3 (amended): when the template cache is empty and the network returns a
non-success status for the first template, day initialization (with skip
flags unset) aborts with the response-status error before any template is
rendered and before the input download — but after the day directory has
been created and the manifest rewritten: the failed run leaves the day
directory existing and the manifest holding the updated serialization,
because the source creates the directory and registers the crate before it
touches the template store. -/
theorem c3_abort_after_scaffold (env : Env) (config : Config) (year day : Nat)
    (fs : FS) (s : String) (doc doc' : TomlDoc)
    (hread : fs.readFile (config.implementation year ++ ["Cargo.toml"]) = some s)
    (hparse : env.parseToml s = .ok doc)
    (hadd : addCrateCore doc (dayName day) = .ok doc')
    (hdirAbsent : (dayScaffoldState env config year day fs doc').pathExists
        (config.dayTemplate year) = false)
    (hfileAbsent : (dayScaffoldState env config year day fs doc').pathExists
        (config.dayTemplate year ++ ["Cargo.toml"]) = false)
    (hclient : env.clientBuild = .ok ())
    (hfetch : env.fetch (templateUrl "Cargo.toml") = .badStatus) :
    (initializeDay env config year day false false fs).2 = .error .responseStatus ∧
    (initializeDay env config year day false false fs).1.dirExists
        (config.implementation year ++ [dayName day]) = true ∧
    (initializeDay env config year day false false fs).1.readFile
        (config.implementation year ++ ["Cargo.toml"])
      = some (env.serializeDoc doc') := by
  have hg : getCargoToml env config year fs
      = .ok (config.implementation year ++ ["Cargo.toml"], doc) := by
    simp [getCargoToml, pathExists_of_readFile_some fs _ s hread, hread, hparse]
  have hw : addCrateToWorkspace env (config.implementation year ++ ["Cargo.toml"])
      doc (dayName day)
      (fs.createDirAll (config.implementation year ++ [dayName day, "src"]))
      = (dayScaffoldState env config year day fs doc', .ok doc') := by
    simp [addCrateToWorkspace, hadd, dayScaffoldState]
  have hfetch1 : fetchTemplate env (config.dayTemplate year) "Cargo.toml"
      ((dayScaffoldState env config year day fs doc').createDirAll
        (config.dayTemplate year))
      = ((dayScaffoldState env config year day fs doc').createDirAll
          (config.dayTemplate year), .error .responseStatus) := by
    have hne : ((dayScaffoldState env config year day fs doc').createDirAll
        (config.dayTemplate year)).pathExists
        (joinRel (config.dayTemplate year) "Cargo.toml") = false := by
      rw [joinRel_cargoToml,
        pathExists_createDirAll_outside _ _ _ (append_singleton_not_isPrefixOf _ _)]
      exact hfileAbsent
    simp [fetchTemplate, hne, hclient, hfetch]
  have hloop : fetchTemplates env (config.dayTemplate year) TEMPLATE_FILES
      ((dayScaffoldState env config year day fs doc').createDirAll
        (config.dayTemplate year))
      = ((dayScaffoldState env config year day fs doc').createDirAll
          (config.dayTemplate year), .error .responseStatus) := by
    simp [TEMPLATE_FILES, fetchTemplates, hfetch1]
  have hensure : ensureTemplateDir env config year
      (dayScaffoldState env config year day fs doc')
      = ((dayScaffoldState env config year day fs doc').createDirAll
          (config.dayTemplate year), .error .responseStatus) := by
    simp [ensureTemplateDir, hdirAbsent, hloop]
  have hrender : renderTemplatesInto env config
      (config.implementation year ++ [dayName day]) year day (dayName day)
      (dayScaffoldState env config year day fs doc')
      = ((dayScaffoldState env config year day fs doc').createDirAll
          (config.dayTemplate year), .error .responseStatus) := by
    simp [renderTemplatesInto, hensure]
  have hres : initializeDay env config year day false false fs
      = ((dayScaffoldState env config year day fs doc').createDirAll
          (config.dayTemplate year), .error .responseStatus) := by
    simp [initializeDay, hg, hw, hrender]
  refine ⟨?_, ?_, ?_⟩
  · rw [hres]
  · rw [hres]
    simp [dayScaffoldState, FS.createDirAll, FS.writeFile, FS.dirExists,
      isPrefixOf_append_cons]
  · rw [hres]
    simp [dayScaffoldState, FS.createDirAll, FS.writeFile, FS.readFile]

/-- C3 counterexample: with an empty template cache and a non-success
response status, the failed initialization has already edited the manifest
(its content changed from `old` to the new serialization) and created the
day directory — the claim's assertion that the abort happens before any
manifest edit or day-directory creation is false on this input. -/
theorem c3_counterexample :
    (initializeDay baseEnv configDay 2023 5 false false fsDay).2
      = .error .responseStatus ∧
    fsDay.readFile ["impl", "Cargo.toml"] = some "old" ∧
    (initializeDay baseEnv configDay 2023 5 false false fsDay).1.readFile
        ["impl", "Cargo.toml"] = some "SERIALIZED" ∧
    (initializeDay baseEnv configDay 2023 5 false false fsDay).1.dirExists
        ["impl", "day05"] = true :=
  ⟨rfl, rfl, rfl, rfl⟩

/-- Witness for C3 on the concrete empty-cache, failing-status scenario. -/
theorem c3_witness :
    (initializeDay baseEnv configDay 2023 5 false false fsDay).2
      = .error .responseStatus ∧
    (initializeDay baseEnv configDay 2023 5 false false fsDay).1.dirExists
        (configDay.implementation 2023 ++ [dayName 5]) = true ∧
    (initializeDay baseEnv configDay 2023 5 false false fsDay).1.readFile
        (configDay.implementation 2023 ++ ["Cargo.toml"])
      = some (baseEnv.serializeDoc (docAfterAdd ⟨[]⟩ [] [] "day05")) :=
  c3_abort_after_scaffold baseEnv configDay 2023 5 fsDay "old" ⟨[]⟩
    (docAfterAdd ⟨[]⟩ [] [] "day05") rfl rfl rfl rfl rfl rfl rfl

/-- C4 (amended): during `initialize_year` (implementation root existing, no
new path options, `..`-free canonical input path), a newline-terminated
relative-path line is appended to the `.gitignore` file at the implementation
root (creating it if absent) if and only if the implementation root is a
prefix of the input-storage path — that is, the input path is a sub-directory
of **or equal to** the root, the equal case appending an empty line rather
than being skipped as a non-strict sub-directory; no de-duplication is
performed, so two invocations for the same year leave the line twice. -/
theorem c4_gitignore_append (env : Env) (config : Config) (year : Nat) (fs : FS)
    (hEx : fs.pathExists (config.implementation year) = true)
    (hCanon : ".." ∉ config.inputFiles year) :
    (initializeYear env config year noOpts fs).2.2 = .ok () ∧
    ((config.implementation year).isPrefixOf (config.inputFiles year) = true →
      (initializeYear env config year noOpts fs).1.readFile
          (config.implementation year ++ [".gitignore"])
        = some (((fs.readFile (config.implementation year ++ [".gitignore"])).getD "")
            ++ (relString ((config.inputFiles year).drop
                  (config.implementation year).length) ++ "\n"))) ∧
    ((config.implementation year).isPrefixOf (config.inputFiles year) = false →
      (initializeYear env config year noOpts fs).1 = fs) ∧
    ((config.implementation year).isPrefixOf (config.inputFiles year) = true →
      (initializeYear env config year noOpts
          ((initializeYear env config year noOpts fs).1)).1.readFile
          (config.implementation year ++ [".gitignore"])
        = some (((fs.readFile (config.implementation year ++ [".gitignore"])).getD "")
            ++ (relString ((config.inputFiles year).drop
                  (config.implementation year).length) ++ "\n")
            ++ (relString ((config.inputFiles year).drop
                  (config.implementation year).length) ++ "\n"))) := by
  have hrun := initializeYear_noOpts env config year fs hEx
  refine ⟨?_, ?_, ?_, ?_⟩
  · rw [hrun]
  · intro hpre
    rw [hrun, gitignoreStep_subdir config year _ fs hpre hCanon]
    simp [FS.appendFile, FS.writeFile, FS.readFile]
  · intro hpre
    rw [hrun, gitignoreStep_not_subdir config year _ fs hpre]
  · intro hpre
    have h1 : (initializeYear env config year noOpts fs).1
        = fs.appendFile (config.implementation year ++ [".gitignore"])
            (relString ((config.inputFiles year).drop
              (config.implementation year).length) ++ "\n") := by
      rw [hrun, gitignoreStep_subdir config year _ fs hpre hCanon]
    have hEx2 : (fs.appendFile (config.implementation year ++ [".gitignore"])
        (relString ((config.inputFiles year).drop
          (config.implementation year).length) ++ "\n")).pathExists
        (config.implementation year) = true := by
      simp only [FS.appendFile]
      exact pathExists_writeFile_mono _ _ _ _ hEx
    have hrun2 := initializeYear_noOpts env config year _ hEx2
    rw [h1, hrun2, gitignoreStep_subdir config year _ _ hpre hCanon]
    simp [FS.appendFile, FS.writeFile, FS.readFile, String.append_assoc]

/-- C4 counterexample: with the input-storage path equal to the
implementation root — not a strict sub-directory — a (degenerate, empty)
ignore line is still appended: `.gitignore` goes from absent to holding a
single newline, contradicting the claim's "if and only if strict
sub-directory". -/
theorem c4_counterexample :
    configEqPaths.inputFiles 2023 = configEqPaths.implementation 2023 ∧
    fsR.readFile ["r", ".gitignore"] = Option.none ∧
    (initializeYear baseEnv configEqPaths 2023 noOpts fsR).1.readFile
        ["r", ".gitignore"] = some "\n" :=
  ⟨rfl, rfl, rfl⟩

/-- Witness for C4: with input storage a strict sub-directory of the root,
one run appends `inputs` with a newline, and a second run appends the same
line again — two identical lines, no de-duplication. -/
theorem c4_witness :
    (initializeYear baseEnv configSubPaths 2023 noOpts fsR).2.2 = .ok () ∧
    (initializeYear baseEnv configSubPaths 2023 noOpts fsR).1.readFile
        ["r", ".gitignore"] = some "inputs\n" ∧
    (initializeYear baseEnv configSubPaths 2023 noOpts
        ((initializeYear baseEnv configSubPaths 2023 noOpts fsR).1)).1.readFile
        ["r", ".gitignore"] = some "inputs\ninputs\n" := by
  have h := c4_gitignore_append baseEnv configSubPaths 2023 fsR rfl (by decide)
  exact ⟨h.1, h.2.1 rfl, h.2.2.2 rfl⟩

/-- C6: the path-configuration phase of `initialize_year` keeps the
invariant for each of the three path roles: an already-configured path is
never overwritten; an unconfigured role with a user-supplied path ends up
holding the canonical form of that path, whose directory then exists; and an
unconfigured role with no supplied path stays unconfigured. The configuration
returned by `initialize_year` is exactly the one produced by this phase. -/
theorem c6_paths_invariant (env : Env) (config : Config) (year : Nat)
    (opts : PathOpts) (fs : FS) :
    ((initializeYear env config year opts fs).2.1
        = (configurePaths env config year opts fs).2) ∧
    (∀ p, (config.yearPaths year).inputFiles = some p →
      (((configurePaths env config year opts fs).2).yearPaths year).inputFiles
        = some p) ∧
    (∀ d, (config.yearPaths year).inputFiles = Option.none →
      opts.inputFiles = some d →
      (((configurePaths env config year opts fs).2).yearPaths year).inputFiles
          = some (env.canon d) ∧
      ((configurePaths env config year opts fs).1).pathExists d = true) ∧
    ((config.yearPaths year).inputFiles = Option.none →
      opts.inputFiles = Option.none →
      (((configurePaths env config year opts fs).2).yearPaths year).inputFiles
        = Option.none) ∧
    (∀ p, (config.yearPaths year).implementation = some p →
      (((configurePaths env config year opts fs).2).yearPaths year).implementation
        = some p) ∧
    (∀ d, (config.yearPaths year).implementation = Option.none →
      opts.implementation = some d →
      (((configurePaths env config year opts fs).2).yearPaths year).implementation
          = some (env.canon d) ∧
      ((configurePaths env config year opts fs).1).pathExists d = true) ∧
    ((config.yearPaths year).implementation = Option.none →
      opts.implementation = Option.none →
      (((configurePaths env config year opts fs).2).yearPaths year).implementation
        = Option.none) ∧
    (∀ p, (config.yearPaths year).dayTemplate = some p →
      (((configurePaths env config year opts fs).2).yearPaths year).dayTemplate
        = some p) ∧
    (∀ d, (config.yearPaths year).dayTemplate = Option.none →
      opts.dayTemplates = some d →
      (((configurePaths env config year opts fs).2).yearPaths year).dayTemplate
          = some (env.canon d) ∧
      ((configurePaths env config year opts fs).1).pathExists d = true) ∧
    ((config.yearPaths year).dayTemplate = Option.none →
      opts.dayTemplates = Option.none →
      (((configurePaths env config year opts fs).2).yearPaths year).dayTemplate
        = Option.none) := by
  have hyp := configurePaths_yearPaths env config year opts fs
  refine ⟨?_, ?_, ?_, ?_, ?_, ?_, ?_, ?_, ?_, ?_⟩
  · rcases hb : bootstrapImpl env
        ((configurePaths env config year opts fs).2.implementation year)
        ((configurePaths env config year opts fs).1) with ⟨fs₂, r⟩
    cases r with
    | ok u => simp [initializeYear, hb]
    | error e => simp [initializeYear, hb]
  · intro p hp
    rw [hyp]
    simp [hp, ensurePath_snd_some_dest]
  · intro d hp hod
    constructor
    · rw [hyp]
      simp [hp, hod, ensurePath]
    · rw [configurePaths_fst, hp, hod]
      exact ensurePath_fst_mono env _ _ _ d
        (ensurePath_fst_mono env _ _ _ d (ensurePath_fst_creates env d fs))
  · intro hp hod
    rw [hyp]
    simp [hp, hod, ensurePath_none_left]
  · intro p hp
    rw [hyp]
    simp [hp, ensurePath_snd_some_dest]
  · intro d hp hod
    constructor
    · rw [hyp]
      simp [hp, hod, ensurePath]
    · rw [configurePaths_fst, hp, hod]
      exact ensurePath_fst_mono env _ _ _ d (ensurePath_fst_creates env d _)
  · intro hp hod
    rw [hyp]
    simp [hp, hod, ensurePath_none_left]
  · intro p hp
    rw [hyp]
    simp [hp, ensurePath_snd_some_dest]
  · intro d hp hod
    constructor
    · rw [hyp]
      simp [hp, hod, ensurePath]
    · rw [configurePaths_fst, hp, hod]
      exact ensurePath_fst_creates env d _
  · intro hp hod
    rw [hyp]
    simp [hp, hod, ensurePath_none_left]

/-- Witness for C6: for an unconfigured year with only an input-storage path
supplied, the stored value is its canonical form, its directory exists
afterwards, the implementation role stays unconfigured, and the returned
configuration is the phase's result. -/
theorem c6_witness :
    (((configurePaths baseEnv configEmpty 2024 optsInput emptyFS).2).yearPaths
        2024).inputFiles = some ["data"] ∧
    ((configurePaths baseEnv configEmpty 2024 optsInput emptyFS).1).pathExists
        ["data"] = true ∧
    (((configurePaths baseEnv configEmpty 2024 optsInput emptyFS).2).yearPaths
        2024).implementation = Option.none ∧
    (initializeYear baseEnv configEmpty 2024 optsInput emptyFS).2.1
      = (configurePaths baseEnv configEmpty 2024 optsInput emptyFS).2 := by
  have h := c6_paths_invariant baseEnv configEmpty 2024 optsInput emptyFS
  exact ⟨(h.2.2.1 ["data"] rfl rfl).1, (h.2.2.1 ["data"] rfl rfl).2,
    h.2.2.2.2.2.2.1 rfl rfl, h.1⟩

/-- C10: when `cargo new` is spawned successfully, `initialize_year` never
returns an error from it — its exit status is entirely ignored (the run is
identical to one where the command exits 0), and when the implementation
root was missing the default `src` sub-directory is absent afterwards (it is
removed if the bootstrap created it); only a failure to launch the command
propagates, as an I/O error. -/
theorem c10_cargo_exit_status_ignored (env : Env) (config : Config) (year : Nat)
    (opts : PathOpts) (fs : FS) (code : Nat) (e : IoErr) :
    (env.cargoNew = .ok code →
      (initializeYear env config year opts fs).2.2 = .ok ()) ∧
    (env.cargoNew = .ok code →
      initializeYear env config year opts fs
        = initializeYear { env with cargoNew := .ok 0 } config year opts fs) ∧
    (env.cargoNew = .ok code →
      ((configurePaths env config year opts fs).1).pathExists
          ((configurePaths env config year opts fs).2.implementation year) = false →
      (initializeYear env config year opts fs).1.dirExists
          ((configurePaths env config year opts fs).2.implementation year ++ ["src"])
        = false) ∧
    (env.cargoNew = .error e →
      ((configurePaths env config year opts fs).1).pathExists
          ((configurePaths env config year opts fs).2.implementation year) = false →
      (initializeYear env config year opts fs).2.2 = .error (.io e)) := by
  refine ⟨?_, ?_, ?_, ?_⟩
  · intro hc
    by_cases hex : ((configurePaths env config year opts fs).1).pathExists
        ((configurePaths env config year opts fs).2.implementation year) = true
    · simp [initializeYear, bootstrapImpl, hex]
    · simp [initializeYear, bootstrapImpl, hex, hc]
  · intro hc
    simp only [initializeYear, bootstrapImpl, hc]
    rfl
  · intro hc hnex
    have hnex' : ¬ ((configurePaths env config year opts fs).1).pathExists
        ((configurePaths env config year opts fs).2.implementation year) = true := by
      simp [hnex]
    simp only [initializeYear, bootstrapImpl, if_neg hnex', hc,
      dirExists_gitignoreStep]
    by_cases hsrc : (env.cargoNewFs
        ((configurePaths env config year opts fs).1)).dirExists
        ((configurePaths env config year opts fs).2.implementation year ++ ["src"])
        = true
    · simp [hsrc, dirExists_gitignoreStep, dirExists_removeDirAll_self]
    · simp [hsrc, dirExists_gitignoreStep]
  · intro he hnex
    have hnex' : ¬ ((configurePaths env config year opts fs).1).pathExists
        ((configurePaths env config year opts fs).2.implementation year) = true := by
      simp [hnex]
    simp [initializeYear, bootstrapImpl, hnex', he]

/-- Witness for C10: `cargo new` exits with status 1 after creating the
project skeleton; year initialization still succeeds and the default `src`
sub-directory it created is gone afterwards. -/
theorem c10_witness :
    (initializeYear envCargoNonzero configBoot 2024 noOpts emptyFS).2.2 = .ok () ∧
    (initializeYear envCargoNonzero configBoot 2024 noOpts emptyFS).1.dirExists
        ["r", "src"] = false := by
  have h := c10_cargo_exit_status_ignored envCargoNonzero configBoot 2024 noOpts
    emptyFS 1 IoErr.other
  exact ⟨h.1 rfl, h.2.2.1 rfl rfl⟩

end Aoctool
